import Mathlib

/-!
Verification development for the `kameo-rpc` example repository
(`src/examples/intranet_common.rs`, `intranet_rpc.rs`, `intranet_server.rs`,
`intranet_client.rs`).

The Rust sources are shallowly embedded here:

* `f64` values are modelled by the inductive `F64`: an exact rational for
  finite values plus the IEEE special values `inf`, `-inf` and `NaN`.
  Rounding and overflow of finite arithmetic are not modelled (finite
  arithmetic is exact rational arithmetic); the special-value propagation
  rules of IEEE 754 are modelled, and `-0.0` is identified with `0.0`.
* `u64` counters are `Nat` reduced modulo `2 ^ 64` at each increment, as
  release-mode Rust wraps.
* `PeerId` is modelled as its display string (an opaque identifier; its
  `Display` form is what enters formatted subscription ids).
* `HashMap<PeerId, ClientInfo>` is modelled as an association list with
  `insert` replacing the binding in place when the key is present, which is
  the observable behaviour of `HashMap::insert`.
* Actor handlers (`&mut self` methods) are state-passing functions
  `State → Msg → Reply × State`.  Calls to `SystemTime::now()` are modelled
  by an explicit `now : Nat` argument.
* The two definitions marked `Modelled from the spec:` embed behaviour of
  the `kameo`/`libp2p` messaging and registry layers, which are dependencies
  configured by `intranet_rpc.rs` but whose implementation is not part of
  the four repository source files.
-/

namespace KameoRpc

/-- Modulus of Rust `u64` arithmetic. -/
def u64Mod : Nat := 2 ^ 64

/-- A libp2p `PeerId`, modelled by its display string. -/
abbrev PeerId := String

/-! ### Model of `f64` -/

/-- Model of Rust `f64`: exact rationals for finite values plus the IEEE
special values.  The sign of zero is not modelled. -/
inductive F64 where
  | finite (q : ℚ)
  | inf
  | negInf
  | nan
deriving DecidableEq

namespace F64

/-- Model of `f64::is_nan`. -/
def isNaN : F64 → Bool
  | nan => true
  | _ => false

/-- Model of `f64::is_infinite`. -/
def isInfinite : F64 → Bool
  | inf => true
  | negInf => true
  | _ => false

/-- Model of the comparison `x == 0.0` on `f64` (`NaN` and the infinities
compare unequal to `0.0`; both IEEE zeros equal `0.0`). -/
def beqZero : F64 → Bool
  | finite q => q == 0
  | _ => false

/-- Model of `f64` addition. -/
def add : F64 → F64 → F64
  | nan, _ => nan
  | _, nan => nan
  | inf, negInf => nan
  | negInf, inf => nan
  | inf, _ => inf
  | _, inf => inf
  | negInf, _ => negInf
  | _, negInf => negInf
  | finite a, finite b => finite (a + b)

/-- Model of `f64` subtraction. -/
def sub : F64 → F64 → F64
  | nan, _ => nan
  | _, nan => nan
  | inf, inf => nan
  | negInf, negInf => nan
  | inf, _ => inf
  | negInf, _ => negInf
  | _, inf => negInf
  | _, negInf => inf
  | finite a, finite b => finite (a - b)

/-- Model of `f64` multiplication. -/
def mul : F64 → F64 → F64
  | nan, _ => nan
  | _, nan => nan
  | inf, inf => inf
  | negInf, negInf => inf
  | inf, negInf => negInf
  | negInf, inf => negInf
  | inf, finite q => if q = 0 then nan else if q < 0 then negInf else inf
  | finite q, inf => if q = 0 then nan else if q < 0 then negInf else inf
  | negInf, finite q => if q = 0 then nan else if q < 0 then inf else negInf
  | finite q, negInf => if q = 0 then nan else if q < 0 then inf else negInf
  | finite a, finite b => finite (a * b)

/-- Model of `f64` division. -/
def div : F64 → F64 → F64
  | nan, _ => nan
  | _, nan => nan
  | inf, inf => nan
  | inf, negInf => nan
  | negInf, inf => nan
  | negInf, negInf => nan
  | inf, finite q => if q < 0 then negInf else inf
  | negInf, finite q => if q < 0 then inf else negInf
  | finite _, inf => finite 0
  | finite _, negInf => finite 0
  | finite a, finite b =>
      if b = 0 then (if a = 0 then nan else if a < 0 then negInf else inf)
      else finite (a / b)

end F64

/-- Display form of an `F64`, standing in for Rust's `Display for f64`
(used only inside the formatted expression strings). -/
def f64Str : F64 → String
  | .finite q => toString q
  | .inf => "inf"
  | .negInf => "-inf"
  | .nan => "NaN"

/-! ### Decimal rendering of a `u64` counter

`format!("{}", n)` renders `n` in decimal.  `natToDecCore` is fuel-based so
that it reduces in the kernel; the fuel argument is always at least `n`. -/

/-- Decimal digit list (most significant first) of `n`, with `fuel ≥ n`. -/
def natToDecCore : Nat → Nat → List Char
  | 0, _ => []
  | _ + 1, 0 => []
  | fuel + 1, n + 1 =>
      natToDecCore fuel ((n + 1) / 10) ++ [Nat.digitChar ((n + 1) % 10)]

/-- Decimal rendering of a natural number, as Rust `Display` for `u64`. -/
def natToDec (n : Nat) : String :=
  if n = 0 then "0" else ⟨natToDecCore n n⟩

/-! ### `CalculatorActor` (`intranet_common.rs`) -/

/-- `AddRequest`. -/
structure AddRequest where
  a : F64
  b : F64
  from_peer : PeerId
  from_name : String

/-- `SubtractRequest`. -/
structure SubtractRequest where
  a : F64
  b : F64
  from_peer : PeerId
  from_name : String

/-- `MultiplyRequest`. -/
structure MultiplyRequest where
  a : F64
  b : F64
  from_peer : PeerId
  from_name : String

/-- `DivideRequest`. -/
structure DivideRequest where
  a : F64
  b : F64
  from_peer : PeerId
  from_name : String

/-- `CalcResponse = (f64, String, String)`: result, expression text,
serving peer name. -/
abbrev CalcResponse := F64 × String × String

/-- State of `CalculatorActor`. -/
structure CalculatorActor where
  server_name : String
  request_count : Nat
deriving DecidableEq

/-- `CalculatorActor::new`. -/
def CalculatorActor.new (server_name : String) : CalculatorActor :=
  { server_name := server_name, request_count := 0 }

/-- Handler of `Message<AddRequest> for CalculatorActor`. -/
def CalculatorActor.handleAdd (s : CalculatorActor) (msg : AddRequest) :
    CalcResponse × CalculatorActor :=
  let s2 : CalculatorActor := { s with request_count := (s.request_count + 1) % u64Mod }
  let result := F64.add msg.a msg.b
  ((result, f64Str msg.a ++ " + " ++ f64Str msg.b, s2.server_name), s2)

/-- Handler of `Message<SubtractRequest> for CalculatorActor`. -/
def CalculatorActor.handleSubtract (s : CalculatorActor) (msg : SubtractRequest) :
    CalcResponse × CalculatorActor :=
  let s2 : CalculatorActor := { s with request_count := (s.request_count + 1) % u64Mod }
  let result := F64.sub msg.a msg.b
  ((result, f64Str msg.a ++ " - " ++ f64Str msg.b, s2.server_name), s2)

/-- Handler of `Message<MultiplyRequest> for CalculatorActor`. -/
def CalculatorActor.handleMultiply (s : CalculatorActor) (msg : MultiplyRequest) :
    CalcResponse × CalculatorActor :=
  let s2 : CalculatorActor := { s with request_count := (s.request_count + 1) % u64Mod }
  let result := F64.mul msg.a msg.b
  ((result, f64Str msg.a ++ " × " ++ f64Str msg.b, s2.server_name), s2)

/-- Handler of `Message<DivideRequest> for CalculatorActor` (reply type
`Option<CalcResponse>`; `None` is an ordinary reply value). -/
def CalculatorActor.handleDivide (s : CalculatorActor) (msg : DivideRequest) :
    Option CalcResponse × CalculatorActor :=
  let s2 : CalculatorActor := { s with request_count := (s.request_count + 1) % u64Mod }
  if msg.b.beqZero then
    (none, s2)
  else
    let result := F64.div msg.a msg.b
    if result.isInfinite || result.isNaN then
      (none, s2)
    else
      (some (result, f64Str msg.a ++ " ÷ " ++ f64Str msg.b, s2.server_name), s2)

/-! ### Notification data model (`intranet_common.rs`) -/

/-- `StreamType`. -/
inductive StreamType where
  | ServerMetrics
  | CalculationHistory
  | SystemEvents
deriving DecidableEq

/-- `Severity`. -/
inductive Severity where
  | Info
  | Warning
  | Error
deriving DecidableEq

/-- `ServerStatusUpdate` (the `f32` rates are modelled by `F64`). -/
structure ServerStatusUpdate where
  timestamp : Nat
  cpu_usage : F64
  memory_usage : F64
  active_connections : Nat
  uptime_seconds : Nat
deriving DecidableEq

/-- `TaskCompletionNotice`. -/
structure TaskCompletionNotice where
  task_id : String
  task_type : String
  result : String
  duration_ms : Nat
  timestamp : Nat
deriving DecidableEq

/-- `SubscribeDataStream`. -/
structure SubscribeDataStream where
  client_peer : PeerId
  client_name : String
  stream_type : StreamType
deriving DecidableEq

/-- `StreamDataItem`. -/
structure StreamDataItem where
  timestamp : Nat
  stream_type : StreamType
  data : String
  sequence : Nat
deriving DecidableEq

/-- `EventBroadcast`. -/
structure EventBroadcast where
  event_type : String
  message : String
  severity : Severity
  timestamp : Nat
deriving DecidableEq

/-- `ClientInfo` (`ActorId` is modelled by `Nat`; `connected_at` by a `Nat`
timestamp). -/
structure ClientInfo where
  peer_id : PeerId
  name : String
  actor_id : Nat
  subscribed_streams : List StreamType
  connected_at : Nat
deriving DecidableEq

/-! ### `HashMap<PeerId, ClientInfo>` model -/

/-- Association-list model of `HashMap<PeerId, ClientInfo>`. -/
abbrev ClientTable := List (PeerId × ClientInfo)

/-- `HashMap::contains_key`. -/
def ClientTable.containsKey (t : ClientTable) (k : PeerId) : Bool :=
  t.any (fun p => p.1 == k)

/-- `HashMap::insert`: when the key is present the binding is replaced in
place, otherwise a new binding is appended. -/
def ClientTable.insert (t : ClientTable) (k : PeerId) (v : ClientInfo) : ClientTable :=
  if t.containsKey k then
    t.map (fun p => if p.1 == k then (k, v) else p)
  else
    t ++ [(k, v)]

/-- `HashMap::get`. -/
def ClientTable.get? (t : ClientTable) (k : PeerId) : Option ClientInfo :=
  (t.find? (fun p => p.1 == k)).map (fun p => p.2)

/-- Keys of the table. -/
def ClientTable.keys (t : ClientTable) : List PeerId :=
  t.map (fun p => p.1)

/-! ### `NotificationActor` (`intranet_common.rs`) -/

/-- State of `NotificationActor`. -/
structure NotificationActor where
  server_name : String
  connected_clients : ClientTable
  event_count : Nat
  start_time : Nat
deriving DecidableEq

/-- `NotificationActor::new` (the `now` argument models
`SystemTime::now()`). -/
def NotificationActor.new (server_name : String) (now : Nat) : NotificationActor :=
  { server_name := server_name
    connected_clients := []
    event_count := 0
    start_time := now }

/-- The subscription id string `format!("sub-{}-{}", client_peer, event_count)`. -/
def subId (p : PeerId) (n : Nat) : String :=
  "sub-" ++ p ++ "-" ++ natToDec n

/-- The `ClientInfo` record built by the subscribe handler. -/
def clientInfoOf (msg : SubscribeDataStream) (now : Nat) : ClientInfo :=
  { peer_id := msg.client_peer
    name := msg.client_name
    actor_id := 0
    subscribed_streams := [msg.stream_type]
    connected_at := now }

/-- Handler of `Message<SubscribeDataStream> for NotificationActor` (reply
type `String`, the subscription id; the handler has no error branch). -/
def NotificationActor.handleSubscribe (s : NotificationActor)
    (msg : SubscribeDataStream) (now : Nat) : String × NotificationActor :=
  let subscription_id := subId msg.client_peer s.event_count
  let s2 : NotificationActor := { s with event_count := (s.event_count + 1) % u64Mod }
  let s3 : NotificationActor :=
    { s2 with connected_clients :=
        s2.connected_clients.insert msg.client_peer (clientInfoOf msg now) }
  (subscription_id, s3)

/-- Replies of a sequence of subscribe calls against one `NotificationActor`,
in call order. -/
def runSubscribes (s : NotificationActor) (now : Nat) :
    List SubscribeDataStream → List String
  | [] => []
  | m :: ms =>
    let r := s.handleSubscribe m now
    r.1 :: runSubscribes r.2 now ms

/-! ### `ClientNotificationHandler` (`intranet_client.rs`) -/

/-- State of `ClientNotificationHandler`. -/
structure ClientNotificationHandler where
  client_name : String
  notification_count : Nat
deriving DecidableEq

/-- `ClientNotificationHandler::new`. -/
def ClientNotificationHandler.new (client_name : String) : ClientNotificationHandler :=
  { client_name := client_name, notification_count := 0 }

/-- Handler of `Message<ServerStatusUpdate> for ClientNotificationHandler`. -/
def ClientNotificationHandler.handleServerStatus (s : ClientNotificationHandler)
    (_msg : ServerStatusUpdate) : Unit × ClientNotificationHandler :=
  ((), { s with notification_count := (s.notification_count + 1) % u64Mod })

/-- Handler of `Message<TaskCompletionNotice> for ClientNotificationHandler`. -/
def ClientNotificationHandler.handleTaskCompletion (s : ClientNotificationHandler)
    (_msg : TaskCompletionNotice) : Unit × ClientNotificationHandler :=
  ((), { s with notification_count := (s.notification_count + 1) % u64Mod })

/-- Handler of `Message<EventBroadcast> for ClientNotificationHandler`. -/
def ClientNotificationHandler.handleEventBroadcast (s : ClientNotificationHandler)
    (_msg : EventBroadcast) : Unit × ClientNotificationHandler :=
  ((), { s with notification_count := (s.notification_count + 1) % u64Mod })

/-- Handler of `Message<StreamDataItem> for ClientNotificationHandler`. -/
def ClientNotificationHandler.handleStreamData (s : ClientNotificationHandler)
    (_msg : StreamDataItem) : Unit × ClientNotificationHandler :=
  ((), { s with notification_count := (s.notification_count + 1) % u64Mod })

/-! ### `find_calculator_service` (`intranet_client.rs`) -/

/-- A remote calculator handle as seen by the client: `calculator.id().peer_id()`
is an `Option<&PeerId>`. -/
structure CalcHandle where
  peerId : Option PeerId
deriving DecidableEq

/-- `find_calculator_service`: walk the providers yielded by
`lookup_all("calculator")`, skipping any whose peer id equals the local peer
id, and return the first remaining one. -/
def find_calculator_service (localPeer : PeerId) : List CalcHandle → Option CalcHandle
  | [] => none
  | c :: rest =>
    if c.peerId == some localPeer then find_calculator_service localPeer rest
    else some c

/-! ### Push loops (`intranet_server.rs`) -/

/-- A resolved remote handle for the client push endpoint. -/
structure HandlerRef where
  refId : Nat
deriving DecidableEq

/-- Payload of one push delivery (the three generator loops produce a
status update, a task-completion notice, or an event broadcast). -/
inductive PushPayload where
  | status (u : ServerStatusUpdate)
  | task (t : TaskCompletionNotice)
  | event (e : EventBroadcast)
deriving DecidableEq

/-- Result of `RemoteActorRef::lookup(name)`: `Result<Option<_>, _>`. -/
abbrev LookupResult := Except String (Option HandlerRef)

/-- One iteration of the delivery part shared by `push_server_status_loop`,
`push_task_completion_loop` and `broadcast_system_events_loop`: for each
name in `vec!["client_handler"]`, look the name up at delivery time and, if
the lookup yields a handler, send the payload to it (fire-and-forget).  The
`serverState` argument models the `_notification_ref` parameter each loop
receives; the generated payload is the `payload` argument. -/
def pushIteration (serverState : NotificationActor)
    (env : String → LookupResult) (payload : PushPayload) :
    List (HandlerRef × PushPayload) :=
  ["client_handler"].filterMap (fun handlerName =>
    match env handlerName with
    | .ok (some h) => some (h, payload)
    | _ => none)

/-! ### Configuration (`intranet_rpc.rs`) -/

/-- `ServerConfig`. -/
structure ServerConfig where
  host : String
  tcp_port : Nat
  quic_port : Nat
  name : String
  idle_timeout_secs : Nat
  request_timeout_secs : Nat
  max_concurrent_streams : Nat
deriving DecidableEq

/-- `Default for ServerConfig`. -/
def ServerConfig.default : ServerConfig :=
  { host := "0.0.0.0"
    tcp_port := 8020
    quic_port := 8021
    name := "server"
    idle_timeout_secs := 300
    request_timeout_secs := 60
    max_concurrent_streams := 500 }

/-- `ClientConfig`. -/
structure ClientConfig where
  server_host : String
  server_tcp_port : Nat
  server_peer_id : Option String
  name : String
  request_timeout_secs : Nat
  max_concurrent_streams : Nat
deriving DecidableEq

/-- `Default for ClientConfig`. -/
def ClientConfig.default : ClientConfig :=
  { server_host := "127.0.0.1"
    server_tcp_port := 8020
    server_peer_id := none
    name := "client"
    request_timeout_secs := 60
    max_concurrent_streams := 500 }

/-! ### Spec-modelled parts of the messaging and registry layers

The per-call timeout engine and the registry liveness policy are
implemented in the `kameo` dependency (`remote::messaging`,
`remote::Behaviour`); `intranet_rpc.rs` only configures them
(`with_request_timeout`) and logs the events they surface.  They are
modelled here from the specification text. -/

/-- Modelled from the spec: a dispatched outgoing call in the kameo
messaging layer (not under `src/`), carrying its dispatch instant and the
configured per-call timeout in seconds (spec section 4.2). -/
structure PendingCall where
  dispatchedAt : Nat
  timeoutSecs : Nat
deriving DecidableEq

/-- Modelled from the spec: outcome of an outgoing call — either a
matching reply delivered to the caller, or the `Timeout` error. -/
inductive CallResult (α : Type) where
  | reply (a : α)
  | timeout
deriving DecidableEq

/-- Modelled from the spec: resolution of an outgoing call in the kameo
messaging layer (not under `src/`).  `arrival` is the matching reply
together with its arrival instant, or `none` if no matching reply ever
arrives.  A per-call timeout starts when the request is dispatched; if no
matching reply arrives before expiry the call resolves to `Timeout`, and a
reply arriving at or after expiry is discarded (spec section 4.2). -/
def resolveCall {α : Type} (c : PendingCall) (arrival : Option (Nat × α)) :
    CallResult α :=
  match arrival with
  | none => CallResult.timeout
  | some (t, a) =>
      if t < c.dispatchedAt + c.timeoutSecs then CallResult.reply a
      else CallResult.timeout

/-- Modelled from the spec: a `ServiceRecord` of the registry kept by the
kameo/libp2p layer (not under `src/`): a service name bound by an owning
peer (spec section 3). -/
structure ServiceRecord where
  service_name : String
  owner_peer : PeerId
deriving DecidableEq

/-- Modelled from the spec: the network-visible registry table (spec
section 3). -/
abbrev Registry := List ServiceRecord

/-- Peers that a lookup for `name` can resolve to. -/
def Registry.lookupAll (r : Registry) (name : String) : List PeerId :=
  (r.filter (fun rec => rec.service_name == name)).map (fun rec => rec.owner_peer)

/-- Connection lifecycle events drained by `spawn_event_loop`
(`intranet_rpc.rs`); only the fields the registry policy reads are kept. -/
inductive ConnEvent where
  | connectionEstablished (p : PeerId)
  | connectionClosed (p : PeerId)
  | other
deriving DecidableEq

/-- Modelled from the spec: the registry liveness policy applied while the
event loop processes one connection event — a connection-closed event for
peer `P` removes or invalidates `P`'s registry entries (spec sections 4.4
and 3); other events leave the registry unchanged.  The policy itself runs
in the kameo dependency, not under `src/`. -/
def registryStep (r : Registry) (e : ConnEvent) : Registry :=
  match e with
  | .connectionClosed p => r.filter (fun rec => !(rec.owner_peer == p))
  | _ => r

/-! ## Theorems -/

/-- C1: the divide handler returns the explicit empty reply exactly when the
divisor compares equal to `0.0` or the quotient is non-finite, and otherwise
the triple of quotient, expression text and server name; a non-empty reply
never carries an infinite or NaN result.  The empty outcome is an ordinary
reply value of the `Option CalcResponse` reply type, not a transport error. -/
theorem divide_empty_result (s : CalculatorActor) (msg : DivideRequest) :
    (s.handleDivide msg).1 =
      (if msg.b.beqZero || (F64.div msg.a msg.b).isInfinite || (F64.div msg.a msg.b).isNaN then
        none
      else
        some (F64.div msg.a msg.b, f64Str msg.a ++ " ÷ " ++ f64Str msg.b, s.server_name)) ∧
    ((s.handleDivide msg).1.all fun r => !r.1.isInfinite && !r.1.isNaN) = true := by
  unfold CalculatorActor.handleDivide
  by_cases hb : msg.b.beqZero = true
  · simp [hb]
  · have hb' : msg.b.beqZero = false := by simpa using hb
    by_cases hi : (F64.div msg.a msg.b).isInfinite = true
    · simp [hb', hi]
    · have hi' : (F64.div msg.a msg.b).isInfinite = false := by simpa using hi
      by_cases hn : (F64.div msg.a msg.b).isNaN = true
      · simp [hb', hi', hn]
      · have hn' : (F64.div msg.a msg.b).isNaN = false := by simpa using hn
        simp [hb', hi', hn']

/-- C2: the add, subtract and multiply handlers reply, for all operands,
with exactly the triple of the floating-point operation applied to the
operands, the expression text built from both operands and the operator,
and the serving peer's name. -/
theorem calc_ops_reply (s : CalculatorActor) (m₁ : AddRequest)
    (m₂ : SubtractRequest) (m₃ : MultiplyRequest) :
    (s.handleAdd m₁).1 =
      (F64.add m₁.a m₁.b, f64Str m₁.a ++ " + " ++ f64Str m₁.b, s.server_name) ∧
    (s.handleSubtract m₂).1 =
      (F64.sub m₂.a m₂.b, f64Str m₂.a ++ " - " ++ f64Str m₂.b, s.server_name) ∧
    (s.handleMultiply m₃).1 =
      (F64.mul m₃.a m₃.b, f64Str m₃.a ++ " × " ++ f64Str m₃.b, s.server_name) :=
  ⟨rfl, rfl, rfl⟩

/-- C6: the subscribe handler is a total function into `String`: on every
state and request it succeeds and replies with the subscription-id string
(there is no error branch; degraded push capability cannot fail the call). -/
theorem subscribe_always_succeeds (s : NotificationActor)
    (msg : SubscribeDataStream) (now : Nat) :
    (s.handleSubscribe msg now).1 = subId msg.client_peer s.event_count ∧
    (s.handleSubscribe msg now).1 =
      "sub-" ++ msg.client_peer ++ "-" ++ natToDec s.event_count :=
  ⟨rfl, rfl⟩

/-- C7: `find_calculator_service` returns the first provider from
`lookup_all("calculator")` whose peer id differs from the local one (and
`none` when there is no such provider); it never returns a handle carrying
the caller's own peer id. -/
theorem find_calculator_excludes_self (localPeer : PeerId) (l : List CalcHandle) :
    find_calculator_service localPeer l =
      l.find? (fun c => !(c.peerId == some localPeer)) ∧
    ((find_calculator_service localPeer l).all
      fun c => !(c.peerId == some localPeer)) = true := by
  have hfind : find_calculator_service localPeer l =
      l.find? (fun c => !(c.peerId == some localPeer)) := by
    induction l with
    | nil => rfl
    | cons c rest ih =>
      by_cases hc : (c.peerId == some localPeer) = true
      · simp [find_calculator_service, hc, List.find?, ih]
      · have hc' : (c.peerId == some localPeer) = false := by simpa using hc
        simp [find_calculator_service, hc', List.find?]
  refine ⟨hfind, ?_⟩
  rw [hfind]
  cases hres : l.find? (fun c => !(c.peerId == some localPeer)) with
  | none => rfl
  | some c => simpa using List.find?_some hres

/-- C9: one delivery iteration of the server push loops is a function of
the name-resolution environment and the generated payload only: two server
states differing arbitrarily in the subscription table (`connected_clients`,
`event_count`, ...) produce identical deliveries, and each delivery goes to
whatever the fixed name `"client_handler"` resolves to at delivery time. -/
theorem push_independent_of_subscriptions (s₁ s₂ : NotificationActor)
    (env : String → LookupResult) (payload : PushPayload) :
    pushIteration s₁ env payload = pushIteration s₂ env payload ∧
    pushIteration s₁ env payload =
      (match env "client_handler" with
       | .ok (some h) => [(h, payload)]
       | _ => []) := by
  refine ⟨rfl, ?_⟩
  cases henv : env "client_handler" with
  | error e => simp [pushIteration, henv]
  | ok o => cases o <;> simp [pushIteration, henv]

/-- C4: after the event loop processes a connection-closed event for peer
`P`, the registry liveness policy has removed `P`'s service records, so no
lookup resolves to `P` any more. -/
theorem connection_closed_invalidates (r : Registry) (p : PeerId) (name : String) :
    (((registryStep r (ConnEvent.connectionClosed p)).lookupAll name).all
      fun q => !(q == p)) = true := by
  simp only [registryStep, Registry.lookupAll, List.all_eq_true]
  intro q hq
  simp only [List.mem_map, List.mem_filter] at hq
  obtain ⟨rec, ⟨⟨_, howner⟩, _⟩, rfl⟩ := hq
  exact howner

/-- C5: a call whose matching reply never arrives, or arrives only at or
after expiry of the configured per-call timeout, resolves to the `Timeout`
error instead of hanging or delivering the late reply; the configured
default timeout (`request_timeout_secs`) is 60 seconds on both server and
client. -/
theorem call_timeout_resolution {α : Type} (c : PendingCall) (t : Nat) (a : α)
    (hlate : c.dispatchedAt + c.timeoutSecs ≤ t) :
    resolveCall c (none : Option (Nat × α)) = CallResult.timeout ∧
    resolveCall c (some (t, a)) = CallResult.timeout ∧
    ServerConfig.default.request_timeout_secs = 60 ∧
    ClientConfig.default.request_timeout_secs = 60 := by
  refine ⟨rfl, ?_, rfl, rfl⟩
  simp only [resolveCall, ite_eq_right_iff]
  intro hlt
  omega

/-- Witness for C5 at a concrete pending call and late reply instant. -/
theorem call_timeout_resolution_witness :
    (0 : Nat) + 60 ≤ 60 ∧
    (resolveCall ⟨0, 60⟩ (none : Option (Nat × Nat)) = CallResult.timeout ∧
      resolveCall ⟨0, 60⟩ (some (60, 5)) = CallResult.timeout ∧
      ServerConfig.default.request_timeout_secs = 60 ∧
      ClientConfig.default.request_timeout_secs = 60) :=
  ⟨by decide, call_timeout_resolution ⟨0, 60⟩ 60 5 (by decide)⟩

/-- C8: each of the four notification handlers increments
`notification_count` by exactly one (below the `u64` wrap bound) and leaves
`client_name` unchanged. -/
theorem notification_counter_increment (s : ClientNotificationHandler)
    (m₁ : ServerStatusUpdate) (m₂ : TaskCompletionNotice)
    (m₃ : EventBroadcast) (m₄ : StreamDataItem)
    (hs : s.notification_count + 1 < u64Mod) :
    ((s.handleServerStatus m₁).2.notification_count = s.notification_count + 1 ∧
      (s.handleServerStatus m₁).2.client_name = s.client_name) ∧
    ((s.handleTaskCompletion m₂).2.notification_count = s.notification_count + 1 ∧
      (s.handleTaskCompletion m₂).2.client_name = s.client_name) ∧
    ((s.handleEventBroadcast m₃).2.notification_count = s.notification_count + 1 ∧
      (s.handleEventBroadcast m₃).2.client_name = s.client_name) ∧
    ((s.handleStreamData m₄).2.notification_count = s.notification_count + 1 ∧
      (s.handleStreamData m₄).2.client_name = s.client_name) := by
  have hmod : (s.notification_count + 1) % u64Mod = s.notification_count + 1 :=
    Nat.mod_eq_of_lt hs
  exact ⟨⟨hmod, rfl⟩, ⟨hmod, rfl⟩, ⟨hmod, rfl⟩, ⟨hmod, rfl⟩⟩

/-- Witness for C8 at a freshly created handler and concrete notifications. -/
theorem notification_counter_increment_witness :
    ((ClientNotificationHandler.new "calc-client").notification_count + 1 < u64Mod) ∧
    ((((ClientNotificationHandler.new "calc-client").handleServerStatus
          ⟨0, F64.finite 0, F64.finite 0, 1, 0⟩).2.notification_count =
        (ClientNotificationHandler.new "calc-client").notification_count + 1 ∧
      (((ClientNotificationHandler.new "calc-client")).handleServerStatus
          ⟨0, F64.finite 0, F64.finite 0, 1, 0⟩).2.client_name =
        (ClientNotificationHandler.new "calc-client").client_name) ∧
    (((ClientNotificationHandler.new "calc-client").handleTaskCompletion
          ⟨"task-0001", "t", "ok", 1, 0⟩).2.notification_count =
        (ClientNotificationHandler.new "calc-client").notification_count + 1 ∧
      (((ClientNotificationHandler.new "calc-client")).handleTaskCompletion
          ⟨"task-0001", "t", "ok", 1, 0⟩).2.client_name =
        (ClientNotificationHandler.new "calc-client").client_name) ∧
    (((ClientNotificationHandler.new "calc-client").handleEventBroadcast
          ⟨"e", "m", Severity.Info, 0⟩).2.notification_count =
        (ClientNotificationHandler.new "calc-client").notification_count + 1 ∧
      (((ClientNotificationHandler.new "calc-client")).handleEventBroadcast
          ⟨"e", "m", Severity.Info, 0⟩).2.client_name =
        (ClientNotificationHandler.new "calc-client").client_name) ∧
    (((ClientNotificationHandler.new "calc-client").handleStreamData
          ⟨0, StreamType.ServerMetrics, "d", 0⟩).2.notification_count =
        (ClientNotificationHandler.new "calc-client").notification_count + 1 ∧
      (((ClientNotificationHandler.new "calc-client")).handleStreamData
          ⟨0, StreamType.ServerMetrics, "d", 0⟩).2.client_name =
        (ClientNotificationHandler.new "calc-client").client_name)) :=
  ⟨by decide,
    notification_counter_increment (ClientNotificationHandler.new "calc-client")
      ⟨0, F64.finite 0, F64.finite 0, 1, 0⟩ ⟨"task-0001", "t", "ok", 1, 0⟩
      ⟨"e", "m", Severity.Info, 0⟩ ⟨0, StreamType.ServerMetrics, "d", 0⟩ (by decide)⟩

/-! ### Table lemmas for the subscription map -/

theorem ClientTable.containsKey_iff (t : ClientTable) (k : PeerId) :
    t.containsKey k = true ↔ ∃ p ∈ t, p.1 = k := by
  simp [ClientTable.containsKey, List.any_eq_true]

theorem ClientTable.containsKey_insert (t : ClientTable) (k : PeerId) (v : ClientInfo) :
    (t.insert k v).containsKey k = true := by
  unfold ClientTable.insert
  by_cases h : t.containsKey k = true
  · rw [if_pos h]
    rw [ClientTable.containsKey_iff] at h ⊢
    obtain ⟨p, hp, hpk⟩ := h
    exact ⟨(k, v), List.mem_map.mpr ⟨p, hp, by simp [hpk]⟩, rfl⟩
  · rw [if_neg h]
    rw [ClientTable.containsKey_iff]
    exact ⟨(k, v), by simp, rfl⟩

theorem ClientTable.length_insert_of_contains (t : ClientTable) (k : PeerId)
    (v : ClientInfo) (h : t.containsKey k = true) :
    (t.insert k v).length = t.length := by
  unfold ClientTable.insert
  rw [if_pos h, List.length_map]

theorem ClientTable.get?_insert (t : ClientTable) (k : PeerId) (v : ClientInfo) :
    (t.insert k v).get? k = some v := by
  unfold ClientTable.insert ClientTable.get?
  by_cases h : t.containsKey k = true
  · rw [if_pos h]
    rw [List.find?_map]
    have hfun : ((fun p : PeerId × ClientInfo => p.1 == k) ∘
        (fun p => if p.1 == k then (k, v) else p)) = fun p => p.1 == k := by
      funext p
      simp only [Function.comp_apply]
      by_cases hp : (p.1 == k) = true
      · rw [if_pos hp, hp]
        simp
      · rw [if_neg hp]
    rw [hfun]
    have hsome : (t.find? fun p => p.1 == k).isSome := by
      rw [List.find?_isSome]
      rw [ClientTable.containsKey_iff] at h
      obtain ⟨p, hp, hpk⟩ := h
      exact ⟨p, hp, by simp [hpk]⟩
    cases hf : t.find? (fun p => p.1 == k) with
    | none => rw [hf] at hsome; simp at hsome
    | some p₀ =>
      have hp₀ := List.find?_some hf
      simp only [] at hp₀
      simp [hp₀, beq_iff_eq.mp hp₀]
  · rw [if_neg h]
    have hnone : t.find? (fun p => p.1 == k) = none := by
      rw [List.find?_eq_none]
      intro p hp hcontr
      exact h ((ClientTable.containsKey_iff t k).mpr ⟨p, hp, by simpa using hcontr⟩)
    rw [List.find?_append, hnone]
    simp

theorem ClientTable.keys_insert_of_contains (t : ClientTable) (k : PeerId)
    (v : ClientInfo) (h : t.containsKey k = true) :
    (t.insert k v).keys = t.keys := by
  unfold ClientTable.insert ClientTable.keys
  rw [if_pos h, List.map_map]
  apply List.map_congr_left
  intro p _
  by_cases hp : (p.1 == k) = true
  · simp [Function.comp, hp, (beq_iff_eq.mp hp).symm]
  · simp [Function.comp, hp]

theorem ClientTable.keys_insert_of_not_contains (t : ClientTable) (k : PeerId)
    (v : ClientInfo) (h : t.containsKey k = false) :
    (t.insert k v).keys = t.keys ++ [k] := by
  unfold ClientTable.insert ClientTable.keys
  rw [if_neg (by simp [h]), List.map_append]
  rfl

theorem ClientTable.nodupKeys_insert (t : ClientTable) (k : PeerId) (v : ClientInfo)
    (h : t.keys.Nodup) : (t.insert k v).keys.Nodup := by
  by_cases hc : t.containsKey k = true
  · rw [ClientTable.keys_insert_of_contains t k v hc]
    exact h
  · have hc' : t.containsKey k = false := by simpa using hc
    rw [ClientTable.keys_insert_of_not_contains t k v hc']
    have hk : k ∉ t.keys := by
      intro hmem
      obtain ⟨p, hp, hpk⟩ := List.mem_map.mp hmem
      have : t.containsKey k = true := (ClientTable.containsKey_iff t k).mpr ⟨p, hp, hpk⟩
      rw [this] at hc'
      exact Bool.noConfusion hc'
    simp [List.nodup_append, h, hk]

/-- C3: re-subscribing with the same client peer (and stream type) does not
add a second row: the second call leaves the table size unchanged and the
row for that client is the freshly built record; moreover every subscribe
preserves the at-most-one-row-per-client-peer invariant (distinct keys). -/
theorem resubscribe_overwrites (s : NotificationActor) (m₁ m₂ : SubscribeDataStream)
    (now₁ now₂ : Nat) (s' : NotificationActor) (m' : SubscribeDataStream) (now' : Nat)
    (hpeer : m₂.client_peer = m₁.client_peer)
    (hstream : m₂.stream_type = m₁.stream_type)
    (hinv : s'.connected_clients.keys.Nodup) :
    ((s.handleSubscribe m₁ now₁).2.handleSubscribe m₂ now₂).2.connected_clients.length =
      (s.handleSubscribe m₁ now₁).2.connected_clients.length ∧
    ((s.handleSubscribe m₁ now₁).2.handleSubscribe m₂ now₂).2.connected_clients.get?
      m₂.client_peer = some (clientInfoOf m₂ now₂) ∧
    (s'.handleSubscribe m' now').2.connected_clients.keys.Nodup := by
  have ht₁ : (s.handleSubscribe m₁ now₁).2.connected_clients
      = s.connected_clients.insert m₁.client_peer (clientInfoOf m₁ now₁) := rfl
  have ht₂ : ((s.handleSubscribe m₁ now₁).2.handleSubscribe m₂ now₂).2.connected_clients
      = (s.connected_clients.insert m₁.client_peer (clientInfoOf m₁ now₁)).insert
          m₂.client_peer (clientInfoOf m₂ now₂) := rfl
  refine ⟨?_, ?_, ?_⟩
  · rw [ht₂, ht₁]
    apply ClientTable.length_insert_of_contains
    rw [hpeer]
    exact ClientTable.containsKey_insert _ _ _
  · rw [ht₂]
    exact ClientTable.get?_insert _ _ _
  · have ht' : (s'.handleSubscribe m' now').2.connected_clients
        = s'.connected_clients.insert m'.client_peer (clientInfoOf m' now') := rfl
    rw [ht']
    exact ClientTable.nodupKeys_insert _ _ _ hinv

/-- Witness for C3: the same client subscribes twice to the metrics stream
against a fresh notification actor. -/
theorem resubscribe_overwrites_witness :
    ((⟨"peerA", "alice", StreamType.ServerMetrics⟩ : SubscribeDataStream).client_peer =
      (⟨"peerA", "alice", StreamType.ServerMetrics⟩ : SubscribeDataStream).client_peer ∧
    (⟨"peerA", "alice", StreamType.ServerMetrics⟩ : SubscribeDataStream).stream_type =
      (⟨"peerA", "alice", StreamType.ServerMetrics⟩ : SubscribeDataStream).stream_type ∧
    (NotificationActor.new "srv" 0).connected_clients.keys.Nodup) ∧
    (((NotificationActor.new "srv" 0).handleSubscribe
        ⟨"peerA", "alice", StreamType.ServerMetrics⟩ 1).2.handleSubscribe
        ⟨"peerA", "alice", StreamType.ServerMetrics⟩ 2).2.connected_clients.length =
      ((NotificationActor.new "srv" 0).handleSubscribe
        ⟨"peerA", "alice", StreamType.ServerMetrics⟩ 1).2.connected_clients.length ∧
    (((NotificationActor.new "srv" 0).handleSubscribe
        ⟨"peerA", "alice", StreamType.ServerMetrics⟩ 1).2.handleSubscribe
        ⟨"peerA", "alice", StreamType.ServerMetrics⟩ 2).2.connected_clients.get?
      (⟨"peerA", "alice", StreamType.ServerMetrics⟩ : SubscribeDataStream).client_peer =
      some (clientInfoOf ⟨"peerA", "alice", StreamType.ServerMetrics⟩ 2) ∧
    ((NotificationActor.new "srv" 0).handleSubscribe
        ⟨"peerA", "alice", StreamType.ServerMetrics⟩ 3).2.connected_clients.keys.Nodup :=
  ⟨⟨rfl, rfl, List.nodup_nil⟩,
    resubscribe_overwrites (NotificationActor.new "srv" 0)
      ⟨"peerA", "alice", StreamType.ServerMetrics⟩
      ⟨"peerA", "alice", StreamType.ServerMetrics⟩ 1 2
      (NotificationActor.new "srv" 0) ⟨"peerA", "alice", StreamType.ServerMetrics⟩ 3
      rfl rfl List.nodup_nil⟩

/-! ### Decimal rendering lemmas -/

theorem string_eq_of_data (s t : String) (h : s.data = t.data) : s = t := by
  cases s
  cases t
  exact congrArg String.mk h

theorem digitChar_inj : ∀ a, a < 10 → ∀ b, b < 10 →
    Nat.digitChar a = Nat.digitChar b → a = b := by decide

theorem digitChar_isDigit : ∀ d, d < 10 → (Nat.digitChar d).isDigit = true := by decide

theorem natToDecCore_eq (fuel : Nat) :
    ∀ n, n ≤ fuel → natToDecCore fuel n = ((Nat.digits 10 n).map Nat.digitChar).reverse := by
  induction fuel with
  | zero =>
    intro n hn
    have hn0 : n = 0 := Nat.le_zero.mp hn
    subst hn0
    simp [natToDecCore]
  | succ fuel ih =>
    intro n hn
    cases n with
    | zero => simp [natToDecCore]
    | succ m =>
      have hdiv : (m + 1) / 10 ≤ fuel := by
        have : (m + 1) / 10 < m + 1 := Nat.div_lt_self (Nat.succ_pos m) (by norm_num)
        omega
      have hd : Nat.digits 10 (m + 1) = (m + 1) % 10 :: Nat.digits 10 ((m + 1) / 10) :=
        Nat.digits_def' (by norm_num) (Nat.succ_pos m)
      simp only [natToDecCore, ih ((m + 1) / 10) hdiv, hd, List.map_cons, List.reverse_cons]

theorem map_digitChar_inj : ∀ (l₁ l₂ : List ℕ), (∀ d ∈ l₁, d < 10) → (∀ d ∈ l₂, d < 10) →
    l₁.map Nat.digitChar = l₂.map Nat.digitChar → l₁ = l₂ := by
  intro l₁
  induction l₁ with
  | nil =>
    intro l₂ _ _ h
    cases l₂ with
    | nil => rfl
    | cons b u => simp at h
  | cons a t ih =>
    intro l₂ h₁ h₂ h
    cases l₂ with
    | nil => simp at h
    | cons b u =>
      simp only [List.map_cons, List.cons.injEq] at h
      have hab : a = b :=
        digitChar_inj a (h₁ a (by simp)) b (h₂ b (by simp)) h.1
      have htu : t = u :=
        ih u (fun d hd => h₁ d (by simp [hd])) (fun d hd => h₂ d (by simp [hd])) h.2
      rw [hab, htu]

theorem natToDec_of_ne_zero (n : Nat) (hn : n ≠ 0) :
    (natToDec n).data = ((Nat.digits 10 n).map Nat.digitChar).reverse := by
  unfold natToDec
  rw [if_neg hn]
  exact natToDecCore_eq n n le_rfl

theorem natToDec_inj (m n : Nat) (h : natToDec m = natToDec n) : m = n := by
  by_cases hm : m = 0 <;> by_cases hn : n = 0
  · omega
  · exfalso
    have hdata := congrArg String.data h
    rw [natToDec_of_ne_zero n hn] at hdata
    have h0 : (natToDec m).data = ['0'] := by rw [hm]; rfl
    rw [h0] at hdata
    have hmap : (Nat.digits 10 n).map Nat.digitChar = ['0'] := by
      have := congrArg List.reverse hdata
      simpa using this.symm
    cases hL : Nat.digits 10 n with
    | nil => rw [hL] at hmap; simp at hmap
    | cons d ds =>
      rw [hL] at hmap
      simp only [List.map_cons, List.cons.injEq, List.map_eq_nil_iff] at hmap
      have hd10 : d < 10 := Nat.digits_lt_base (by norm_num) (by rw [hL]; simp)
      have hd0 : d = 0 := digitChar_inj d hd10 0 (by norm_num) hmap.1
      have hofd := Nat.ofDigits_digits 10 n
      rw [hL, hmap.2, hd0] at hofd
      simp [Nat.ofDigits] at hofd
      exact hn hofd.symm
  · exfalso
    have hdata := congrArg String.data h
    rw [natToDec_of_ne_zero m hm] at hdata
    have h0 : (natToDec n).data = ['0'] := by rw [hn]; rfl
    rw [h0] at hdata
    have hmap : (Nat.digits 10 m).map Nat.digitChar = ['0'] := by
      have := congrArg List.reverse hdata
      simpa using this
    cases hL : Nat.digits 10 m with
    | nil => rw [hL] at hmap; simp at hmap
    | cons d ds =>
      rw [hL] at hmap
      simp only [List.map_cons, List.cons.injEq, List.map_eq_nil_iff] at hmap
      have hd10 : d < 10 := Nat.digits_lt_base (by norm_num) (by rw [hL]; simp)
      have hd0 : d = 0 := digitChar_inj d hd10 0 (by norm_num) hmap.1
      have hofd := Nat.ofDigits_digits 10 m
      rw [hL, hmap.2, hd0] at hofd
      simp [Nat.ofDigits] at hofd
      exact hm hofd.symm
  · have hdata := congrArg String.data h
    rw [natToDec_of_ne_zero m hm, natToDec_of_ne_zero n hn] at hdata
    have hmap : (Nat.digits 10 m).map Nat.digitChar = (Nat.digits 10 n).map Nat.digitChar := by
      have := congrArg List.reverse hdata
      simpa using this
    have hdig : Nat.digits 10 m = Nat.digits 10 n :=
      map_digitChar_inj _ _ (fun d hd => Nat.digits_lt_base (by norm_num) hd)
        (fun d hd => Nat.digits_lt_base (by norm_num) hd) hmap
    exact Nat.digits.injective 10 hdig

theorem natToDec_digit (n : Nat) : ∀ c ∈ (natToDec n).data, c.isDigit = true := by
  intro c hc
  by_cases hn : n = 0
  · have h0 : (natToDec n).data = ['0'] := by rw [hn]; rfl
    rw [h0] at hc
    simp at hc
    rw [hc]
    decide
  · rw [natToDec_of_ne_zero n hn, List.mem_reverse] at hc
    obtain ⟨d, hd, rfl⟩ := List.mem_map.mp hc
    exact digitChar_isDigit d (Nat.digits_lt_base (by norm_num) hd)

/-! ### Distinctness of subscription ids -/

theorem digit_tail_eq_aux (d₁ d₂ L : List Char)
    (h₁ : ('-' :: d₁) <:+ L) (h₂ : ('-' :: d₂) <:+ L)
    (hlen : d₁.length ≤ d₂.length) (hd₂ : ∀ c ∈ d₂, c.isDigit = true) : d₁ = d₂ := by
  have hsub : ('-' :: d₁) <:+ ('-' :: d₂) :=
    List.suffix_of_suffix_length_le h₁ h₂ (by simpa using Nat.succ_le_succ hlen)
  rcases List.suffix_cons_iff.mp hsub with heq | hsuf
  · exact (List.cons.injEq '-' d₁ '-' d₂).mp heq |>.2
  · exfalso
    have hmem : '-' ∈ d₂ := hsuf.subset (by simp)
    have := hd₂ '-' hmem
    exact absurd this (by decide)

theorem digit_tail_eq (x₁ x₂ d₁ d₂ : List Char)
    (hd₁ : ∀ c ∈ d₁, c.isDigit = true) (hd₂ : ∀ c ∈ d₂, c.isDigit = true)
    (h : x₁ ++ '-' :: d₁ = x₂ ++ '-' :: d₂) : d₁ = d₂ := by
  rcases le_total d₁.length d₂.length with hl | hl
  · exact digit_tail_eq_aux d₁ d₂ (x₂ ++ '-' :: d₂) ⟨x₁, h⟩ ⟨x₂, rfl⟩ hl hd₂
  · exact (digit_tail_eq_aux d₂ d₁ (x₁ ++ '-' :: d₁) ⟨x₂, h.symm⟩ ⟨x₁, rfl⟩ hl hd₁).symm

theorem subId_data (p : PeerId) (n : Nat) :
    (subId p n).data = ("sub-".data ++ p.data) ++ '-' :: (natToDec n).data := by
  show ((("sub-" ++ p) ++ "-") ++ natToDec n).data = _
  have h1 : ((("sub-" ++ p) ++ "-") ++ natToDec n).data
      = (("sub-".data ++ p.data) ++ ("-" : String).data) ++ (natToDec n).data := rfl
  rw [h1]
  have h2 : ("-" : String).data = ['-'] := rfl
  rw [h2, List.append_assoc ("sub-".data ++ p.data) ['-'] (natToDec n).data]
  rfl

theorem subId_count_inj (p₁ p₂ : PeerId) (n₁ n₂ : Nat)
    (h : subId p₁ n₁ = subId p₂ n₂) : n₁ = n₂ := by
  have hdata := congrArg String.data h
  rw [subId_data p₁ n₁, subId_data p₂ n₂] at hdata
  have hd := digit_tail_eq _ _ _ _ (natToDec_digit n₁) (natToDec_digit n₂) hdata
  exact natToDec_inj n₁ n₂ (string_eq_of_data _ _ hd)

/-! ### Subscription id sequences -/

theorem runSubscribes_length (msgs : List SubscribeDataStream) :
    ∀ (s : NotificationActor) (now : Nat),
      (runSubscribes s now msgs).length = msgs.length := by
  induction msgs with
  | nil => intro s now; rfl
  | cons m₀ ms ih => intro s now; simp [runSubscribes, ih]

theorem runSubscribes_get? (msgs : List SubscribeDataStream) :
    ∀ (s : NotificationActor) (now k : Nat) (m : SubscribeDataStream),
      s.event_count < u64Mod → msgs.get? k = some m →
      (runSubscribes s now msgs).get? k
        = some (subId m.client_peer ((s.event_count + k) % u64Mod)) := by
  induction msgs with
  | nil =>
    intro s now k m _ hk
    simp at hk
  | cons m₀ ms ih =>
    intro s now k m hs hk
    cases k with
    | zero =>
      have hm : m₀ = m := by simpa using hk
      subst hm
      show some (subId m₀.client_peer s.event_count) = _
      rw [Nat.add_zero, Nat.mod_eq_of_lt hs]
    | succ k' =>
      have hs₂ : ((s.handleSubscribe m₀ now).2).event_count < u64Mod :=
        Nat.mod_lt _ (by norm_num [u64Mod])
      have hrec := ih ((s.handleSubscribe m₀ now).2) now k' m hs₂ (by simpa using hk)
      show (runSubscribes ((s.handleSubscribe m₀ now).2) now ms).get? k' = _
      rw [hrec]
      have hcount : (((s.handleSubscribe m₀ now).2).event_count + k') % u64Mod
          = (s.event_count + (k' + 1)) % u64Mod := by
        show ((s.event_count + 1) % u64Mod + k') % u64Mod = _
        rw [Nat.mod_add_mod]
        congr 1
        omega
      rw [hcount]

/-- C10: starting from a fresh `NotificationActor`, the reply of the `k`-th
subscribe call is exactly `"sub-<client_peer>-<k>"` (the event count at the
time of the call, incremented once per call), and the ids replied across
the whole sequence are pairwise distinct — even for one repeating client. -/
theorem subscription_ids_distinct (name : String) (now₀ now : Nat)
    (msgs : List SubscribeDataStream) (k : Nat) (m : SubscribeDataStream)
    (hlen : msgs.length ≤ u64Mod) (hk : msgs.get? k = some m) :
    (runSubscribes (NotificationActor.new name now₀) now msgs).get? k
      = some (subId m.client_peer k) ∧
    (runSubscribes (NotificationActor.new name now₀) now msgs).Pairwise (· ≠ ·) := by
  have h0 : (NotificationActor.new name now₀).event_count < u64Mod := by
    norm_num [NotificationActor.new, u64Mod]
  constructor
  · obtain ⟨hklt, -⟩ := List.get?_eq_some.mp hk
    rw [runSubscribes_get? msgs (NotificationActor.new name now₀) now k m h0 hk]
    show some (subId m.client_peer ((0 + k) % u64Mod)) = _
    rw [Nat.zero_add, Nat.mod_eq_of_lt (lt_of_lt_of_le hklt hlen)]
  · rw [List.pairwise_iff_get]
    intro i j hij
    have hlenL : (runSubscribes (NotificationActor.new name now₀) now msgs).length
        = msgs.length := runSubscribes_length msgs _ _
    have hi' : (i : Nat) < msgs.length := by rw [← hlenL]; exact i.isLt
    have hj' : (j : Nat) < msgs.length := by rw [← hlenL]; exact j.isLt
    have hgi := runSubscribes_get? msgs (NotificationActor.new name now₀) now i
      (msgs.get ⟨i, hi'⟩) h0 (List.get?_eq_get hi')
    have hgj := runSubscribes_get? msgs (NotificationActor.new name now₀) now j
      (msgs.get ⟨j, hj'⟩) h0 (List.get?_eq_get hj')
    rw [List.get?_eq_get i.isLt] at hgi
    rw [List.get?_eq_get j.isLt] at hgj
    have hvi := Option.some.inj hgi
    have hvj := Option.some.inj hgj
    intro heq
    rw [heq] at hvi
    have hcount : ((NotificationActor.new name now₀).event_count + (i : Nat)) % u64Mod
        = ((NotificationActor.new name now₀).event_count + (j : Nat)) % u64Mod :=
      subId_count_inj _ _ _ _ (hvi.symm.trans hvj)
    have hmodi : (0 + (i : Nat)) % u64Mod = (i : Nat) := by
      rw [Nat.zero_add]
      exact Nat.mod_eq_of_lt (lt_of_lt_of_le hi' hlen)
    have hmodj : (0 + (j : Nat)) % u64Mod = (j : Nat) := by
      rw [Nat.zero_add]
      exact Nat.mod_eq_of_lt (lt_of_lt_of_le hj' hlen)
    have hij' : (i : Nat) = (j : Nat) := by
      have : ((0 : Nat) + (i : Nat)) % u64Mod = (0 + (j : Nat)) % u64Mod := hcount
      rw [hmodi, hmodj] at this
      exact this
    exact absurd hij' (Nat.ne_of_lt hij)

/-- Witness for C10: the same client subscribes twice; the second id is
`sub-peerA-1` and the two ids are distinct. -/
theorem subscription_ids_distinct_witness :
    (([⟨"peerA", "alice", StreamType.ServerMetrics⟩,
        ⟨"peerA", "alice", StreamType.ServerMetrics⟩] :
          List SubscribeDataStream).length ≤ u64Mod ∧
      ([⟨"peerA", "alice", StreamType.ServerMetrics⟩,
        ⟨"peerA", "alice", StreamType.ServerMetrics⟩] :
          List SubscribeDataStream).get? 1 =
        some ⟨"peerA", "alice", StreamType.ServerMetrics⟩) ∧
    ((runSubscribes (NotificationActor.new "srv" 0) 7
        [⟨"peerA", "alice", StreamType.ServerMetrics⟩,
          ⟨"peerA", "alice", StreamType.ServerMetrics⟩]).get? 1
      = some (subId "peerA" 1) ∧
      (runSubscribes (NotificationActor.new "srv" 0) 7
        [⟨"peerA", "alice", StreamType.ServerMetrics⟩,
          ⟨"peerA", "alice", StreamType.ServerMetrics⟩]).Pairwise (· ≠ ·)) :=
  ⟨⟨by decide, rfl⟩,
    subscription_ids_distinct "srv" 0 7
      [⟨"peerA", "alice", StreamType.ServerMetrics⟩,
        ⟨"peerA", "alice", StreamType.ServerMetrics⟩] 1
      ⟨"peerA", "alice", StreamType.ServerMetrics⟩ (by decide) rfl⟩

end KameoRpc

